import Mathlib

/-!
Verification of the Route Planning Engine of the smart-routes backend.

The definitions below are a shallow embedding of the TypeScript source:
the waypoint sequencing loop and the per-leg routing/aggregation loop of
the calculateRoute mutation (src/server/routers.ts), and the persistence
path of the saveRoute mutation together with the database helpers it
calls (src/server/db.ts).  JavaScript numbers appearing in the sequencer
are modelled by the type JVal (a real number, Infinity, or NaN), so that
the behaviour of parseFloat on unparseable input and of comparisons
against Infinity and NaN is preserved.
-/

namespace SmartRoutes

/-- Model of a JavaScript number as it occurs in the sequencing code:
either a finite real, positive Infinity (the initial value of the
minDistance variable), or NaN (the result of parseFloat on unparseable
input; a non-finite parsed coordinate behaves identically to NaN in this
code path, since it is never selected by the strict comparison). -/
inductive JVal where
  | nan : JVal
  | inf : JVal
  | fin : ℝ → JVal

/-- A JVal is a finite number. -/
def JVal.IsFin : JVal → Prop := fun v => ∃ x, v = JVal.fin x

/-- The real number carried by a finite JVal (0 for NaN or Infinity;
only ever applied to finite values in the statements below). -/
def JVal.toR : JVal → ℝ
  | JVal.fin x => x
  | _ => 0

/-- JavaScript subtraction on the values the sequencer manipulates.
NaN propagates; the Infinity cases are irrelevant to the code paths
proved about (coordinates are finite or NaN) and propagate Infinity. -/
noncomputable def jsub : JVal → JVal → JVal
  | JVal.nan, _ => JVal.nan
  | _, JVal.nan => JVal.nan
  | JVal.inf, _ => JVal.inf
  | _, JVal.inf => JVal.inf
  | JVal.fin a, JVal.fin b => JVal.fin (a - b)

/-- JavaScript multiplication, on the same cases as jsub. -/
noncomputable def jmul : JVal → JVal → JVal
  | JVal.nan, _ => JVal.nan
  | _, JVal.nan => JVal.nan
  | JVal.inf, _ => JVal.inf
  | _, JVal.inf => JVal.inf
  | JVal.fin a, JVal.fin b => JVal.fin (a * b)

/-- JavaScript addition, on the same cases as jsub. -/
noncomputable def jadd : JVal → JVal → JVal
  | JVal.nan, _ => JVal.nan
  | _, JVal.nan => JVal.nan
  | JVal.inf, _ => JVal.inf
  | _, JVal.inf => JVal.inf
  | JVal.fin a, JVal.fin b => JVal.fin (a + b)

/-- JavaScript Math.sqrt: NaN on NaN and on negative input, Infinity on
Infinity, the real square root otherwise. -/
noncomputable def jsqrt : JVal → JVal
  | JVal.nan => JVal.nan
  | JVal.inf => JVal.inf
  | JVal.fin a => if a < 0 then JVal.nan else JVal.fin (Real.sqrt a)

/-- JavaScript strict less-than: any comparison with NaN is false, a
finite number is below Infinity, Infinity is below nothing. -/
noncomputable def jlt : JVal → JVal → Bool
  | JVal.nan, _ => false
  | _, JVal.nan => false
  | JVal.fin a, JVal.fin b => if a < b then true else false
  | JVal.fin _, JVal.inf => true
  | JVal.inf, _ => false

/-- A waypoint as built in calculateRoute: lat, lng (results of
parseFloat, hence possibly NaN) and a name. -/
structure Wp where
  lat : JVal
  lng : JVal
  name : String

/-- Default waypoint used only as the default argument of list indexing
(every access proved about is in range). -/
def wpDefault : Wp := ⟨JVal.nan, JVal.nan, ""⟩

/-- The depot constant CODECA of src/server/routers.ts. -/
noncomputable def CODECA : Wp := ⟨JVal.fin (-29.1750), JVal.fin (-51.1850), "Codeca (Garagem)"⟩

/-- An input container as consumed by calculateRoute: latitude and
longitude hold the result of parseFloat(String(c.latitude)) and
parseFloat(String(c.longitude)) (NaN when unparseable), plus the name. -/
structure ContainerIn where
  latitude : JVal
  longitude : JVal
  name : String

/-- The waypoint built from one input container (the containers.map of
calculateRoute). -/
def parseWp (c : ContainerIn) : Wp := ⟨c.latitude, c.longitude, c.name⟩

/-- The squared-planar distance computation of the inner loop:
sqrt(dx*dx + dy*dy) with dx the latitude difference and dy the
longitude difference, in JavaScript arithmetic. -/
noncomputable def jdist (current w : Wp) : JVal :=
  jsqrt (jadd (jmul (jsub w.lat current.lat) (jsub w.lat current.lat))
              (jmul (jsub w.lng current.lng) (jsub w.lng current.lng)))

/-- The same distance as a real number, meaningful when all coordinates
involved are finite. -/
noncomputable def rdist (current w : Wp) : ℝ :=
  Real.sqrt ((w.lat.toR - current.lat.toR) * (w.lat.toR - current.lat.toR) +
             (w.lng.toR - current.lng.toR) * (w.lng.toR - current.lng.toR))

/-- One candidate step of the inner for loop of the sequencer: skip a
visited index, otherwise compare the distance to the running minimum
with the strict JavaScript less-than and update (nearest, minDistance). -/
noncomputable def selStep (current : Wp) (wps : List Wp) (visited : Finset ℕ)
    (acc : ℤ × JVal) (i : ℕ) : ℤ × JVal :=
  if i ∉ visited then
    let d := jdist current (wps.getD i wpDefault)
    if jlt d acc.2 then ((i : ℤ), d) else acc
  else acc

/-- The inner for loop of the sequencer: scan all indices in order,
starting from nearest = -1 and minDistance = Infinity. -/
noncomputable def selectNearest (current : Wp) (wps : List Wp) (visited : Finset ℕ) : ℤ × JVal :=
  (List.range wps.length).foldl (selStep current wps visited) (-1, JVal.inf)

/-- State of the while loop of the sequencer: the waypoint array, the
visited index set, and the route built so far. -/
structure SeqState where
  wps : List Wp
  visited : Finset ℕ
  route : List Wp

/-- The expression optimizedRoute[optimizedRoute.length - 1]. -/
noncomputable def currentOf (s : SeqState) : Wp := s.route.getD (s.route.length - 1) CODECA

/-- One iteration of the while loop body: select the nearest unvisited
waypoint; if one was found (nearest different from -1) append it to the
route and mark it visited, otherwise leave the state unchanged. -/
noncomputable def seqStep (s : SeqState) : SeqState :=
  let current := currentOf s
  let sel := selectNearest current s.wps s.visited
  if sel.1 ≠ -1 then
    { s with route := s.route ++ [s.wps.getD sel.1.toNat wpDefault],
             visited := insert sel.1.toNat s.visited }
  else s

/-- The while loop, run with explicit fuel.  A fuel of
(number of waypoints + 1) is enough for every terminating execution,
because each iteration that changes the state adds exactly one index to
the visited set; the value none therefore means that some iteration left
the state unchanged, in which case the source loop repeats that
iteration forever and never terminates. -/
noncomputable def seqLoop : ℕ → SeqState → Option SeqState
  | 0, _ => none
  | n + 1, s => if s.visited.card < s.wps.length then seqLoop n (seqStep s) else some s

/-- The sequencing phase of calculateRoute (src/server/routers.ts lines
186-227): reject an empty container list with the error the source
throws, otherwise run the greedy nearest-neighbor loop from CODECA and
close the tour with CODECA.  The inner Option is the termination marker
of seqLoop: some tour when the while loop exits, none when it runs
forever. -/
noncomputable def calculateRouteSequence (cs : List ContainerIn) :
    Except String (Option (List Wp)) :=
  if cs.length = 0 then Except.error "No containers provided"
  else
    let wps := cs.map parseWp
    match seqLoop (wps.length + 1) ⟨wps, ∅, [CODECA]⟩ with
    | some s => Except.ok (some (s.route ++ [CODECA]))
    | none => Except.ok none

theorem jlt_fin_inf (a : ℝ) : jlt (JVal.fin a) JVal.inf = true := rfl

theorem jlt_fin_fin (a b : ℝ) : jlt (JVal.fin a) (JVal.fin b) = true ↔ a < b := by
  by_cases h : a < b <;> simp [jlt, h]

theorem jdist_eq_rdist (current w : Wp) (h1 : current.lat.IsFin) (h2 : current.lng.IsFin)
    (h3 : w.lat.IsFin) (h4 : w.lng.IsFin) :
    jdist current w = JVal.fin (rdist current w) := by
  obtain ⟨a, ha⟩ := h1
  obtain ⟨b, hb⟩ := h2
  obtain ⟨p, hp⟩ := h3
  obtain ⟨q, hq⟩ := h4
  have hnn : (0 : ℝ) ≤ (p - a) * (p - a) + (q - b) * (q - b) :=
    add_nonneg (mul_self_nonneg _) (mul_self_nonneg _)
  simp only [jdist, rdist, ha, hb, hp, hq, jsub, jmul, jadd, jsqrt, JVal.toR]
  rw [if_neg (not_lt.mpr hnn)]

theorem selStep_visited (current : Wp) (wps : List Wp) (visited : Finset ℕ)
    (acc : ℤ × JVal) (k : ℕ) (hkv : k ∈ visited) :
    selStep current wps visited acc k = acc := by
  simp [selStep, hkv]

theorem selStep_unvisited (current : Wp) (wps : List Wp) (visited : Finset ℕ)
    (acc : ℤ × JVal) (k : ℕ) (hkv : k ∉ visited) :
    selStep current wps visited acc k =
      if jlt (jdist current (wps.getD k wpDefault)) acc.2 then
        ((k : ℤ), jdist current (wps.getD k wpDefault))
      else acc := by
  simp [selStep, hkv]

/-- Full characterization of the inner for loop after scanning the first
k indices: either no unvisited index was seen and the accumulator still
holds (-1, Infinity), or the accumulator holds the first unvisited index
realizing the strict minimum of the planar distance among the scanned
unvisited indices. -/
theorem selFold_spec (current : Wp) (wps : List Wp) (visited : Finset ℕ)
    (hcur1 : current.lat.IsFin) (hcur2 : current.lng.IsFin)
    (hfin : ∀ w ∈ wps, w.lat.IsFin ∧ w.lng.IsFin) :
    ∀ k, k ≤ wps.length →
    (((List.range k).foldl (selStep current wps visited) (-1, JVal.inf) = (-1, JVal.inf)) ∧
        ∀ j, j < k → j ∈ visited) ∨
      (∃ m, m < k ∧ m ∉ visited ∧
        (List.range k).foldl (selStep current wps visited) (-1, JVal.inf) =
          ((m : ℤ), JVal.fin (rdist current (wps.getD m wpDefault))) ∧
        (∀ j, j < k → j ∉ visited →
          rdist current (wps.getD m wpDefault) ≤ rdist current (wps.getD j wpDefault) ∧
          (rdist current (wps.getD j wpDefault) = rdist current (wps.getD m wpDefault) →
            m ≤ j))) := by
  intro k
  induction k with
  | zero => intro _; left; exact ⟨rfl, fun j hj => absurd hj (Nat.not_lt_zero j)⟩
  | succ k ih =>
    intro hk
    have hklen : k < wps.length := hk
    have hmem : wps.getD k wpDefault ∈ wps := by
      rw [List.getD_eq_getElem wps wpDefault hklen]
      exact List.getElem_mem hklen
    have hdk : jdist current (wps.getD k wpDefault) =
        JVal.fin (rdist current (wps.getD k wpDefault)) :=
      jdist_eq_rdist current _ hcur1 hcur2 (hfin _ hmem).1 (hfin _ hmem).2
    rw [List.range_succ, List.foldl_append, List.foldl_cons, List.foldl_nil]
    rcases ih (Nat.le_of_lt hklen) with ⟨hacc, hall⟩ | ⟨m, hmk, hmv, hacc, hmin⟩
    · rw [hacc]
      by_cases hkv : k ∈ visited
      · left
        constructor
        · exact selStep_visited current wps visited _ k hkv
        · intro j hj
          rcases Nat.lt_succ_iff_lt_or_eq.mp hj with h | h
          · exact hall j h
          · exact h ▸ hkv
      · right
        refine ⟨k, Nat.lt_succ_self k, hkv, ?_, ?_⟩
        · rw [selStep_unvisited current wps visited _ k hkv, hdk]
          simp [jlt_fin_inf]
        · intro j hj hjv
          rcases Nat.lt_succ_iff_lt_or_eq.mp hj with h | h
          · exact absurd (hall j h) hjv
          · subst h; exact ⟨le_refl _, fun _ => le_refl _⟩
    · rw [hacc]
      by_cases hkv : k ∈ visited
      · right
        refine ⟨m, Nat.lt_succ_of_lt hmk, hmv, selStep_visited current wps visited _ k hkv, ?_⟩
        intro j hj hjv
        rcases Nat.lt_succ_iff_lt_or_eq.mp hj with h | h
        · exact hmin j h hjv
        · exact absurd (h ▸ hkv) hjv
      · rw [selStep_unvisited current wps visited _ k hkv, hdk]
        by_cases hlt : rdist current (wps.getD k wpDefault) <
            rdist current (wps.getD m wpDefault)
        · right
          refine ⟨k, Nat.lt_succ_self k, hkv, ?_, ?_⟩
          · rw [if_pos ((jlt_fin_fin _ _).mpr hlt)]
          · intro j hj hjv
            rcases Nat.lt_succ_iff_lt_or_eq.mp hj with h | h
            · refine ⟨le_trans (le_of_lt hlt) (hmin j h hjv).1, fun heq => ?_⟩
              exact absurd (lt_of_lt_of_le hlt (heq ▸ (hmin j h hjv).1)) (lt_irrefl _)
            · subst h; exact ⟨le_refl _, fun _ => le_refl _⟩
        · right
          refine ⟨m, Nat.lt_succ_of_lt hmk, hmv, ?_, ?_⟩
          · rw [if_neg]
            intro hc
            exact hlt ((jlt_fin_fin _ _).mp hc)
          · intro j hj hjv
            rcases Nat.lt_succ_iff_lt_or_eq.mp hj with h | h
            · exact hmin j h hjv
            · subst h
              exact ⟨not_lt.mp hlt, fun _ => le_of_lt hmk⟩

/-- The inner for loop, when some unvisited index exists and every
coordinate in play is finite, returns the first unvisited index
realizing the strict minimum planar distance from the current point. -/
theorem selectNearest_spec (current : Wp) (wps : List Wp) (visited : Finset ℕ)
    (hcur1 : current.lat.IsFin) (hcur2 : current.lng.IsFin)
    (hfin : ∀ w ∈ wps, w.lat.IsFin ∧ w.lng.IsFin)
    (hex : ∃ i, i < wps.length ∧ i ∉ visited) :
    ∃ m, m < wps.length ∧ m ∉ visited ∧
      selectNearest current wps visited =
        ((m : ℤ), JVal.fin (rdist current (wps.getD m wpDefault))) ∧
      (∀ j, j < wps.length → j ∉ visited →
        rdist current (wps.getD m wpDefault) ≤ rdist current (wps.getD j wpDefault) ∧
        (rdist current (wps.getD j wpDefault) = rdist current (wps.getD m wpDefault) →
          m ≤ j)) := by
  rcases selFold_spec current wps visited hcur1 hcur2 hfin wps.length (le_refl _) with
    ⟨_, hall⟩ | ⟨m, hmk, hmv, hacc, hmin⟩
  · obtain ⟨i, hi, hiv⟩ := hex
    exact absurd (hall i hi) hiv
  · exact ⟨m, hmk, hmv, hacc, hmin⟩

theorem seqStep_select (s : SeqState) (m : ℕ) (v : JVal)
    (hsel : selectNearest (currentOf s) s.wps s.visited = ((m : ℤ), v)) :
    seqStep s = { s with route := s.route ++ [s.wps.getD m wpDefault],
                         visited := insert m s.visited } := by
  have hne : ((m : ℤ), v).1 ≠ -1 := by
    intro h
    simp only at h
    omega
  simp only [seqStep, hsel, hne, if_pos, ne_eq, not_false_iff, if_true]
  simp [Int.toNat_natCast]

/-- Invariant of the sequencing while loop: the waypoint array never
changes, visited indices are in range, every waypoint already placed on
the route has finite coordinates, and the route is the depot followed by
the waypoints at a duplicate-free list of indices whose underlying set
is exactly the visited set. -/
def SeqInv (wps : List Wp) (s : SeqState) : Prop :=
  s.wps = wps ∧
  s.visited ⊆ Finset.range wps.length ∧
  (∀ w ∈ s.route, w.lat.IsFin ∧ w.lng.IsFin) ∧
  ∃ ixs : List ℕ, s.route = CODECA :: ixs.map (fun i => wps.getD i wpDefault) ∧
    ixs.Nodup ∧ ixs.toFinset = s.visited

theorem currentOf_mem (s : SeqState) (h : s.route ≠ []) : currentOf s ∈ s.route := by
  have hlen : s.route.length - 1 < s.route.length := by
    have := List.length_pos.mpr h
    omega
  rw [currentOf, List.getD_eq_getElem s.route CODECA hlen]
  exact List.getElem_mem hlen

theorem seqStep_preserves (wps : List Wp)
    (hfin : ∀ w ∈ wps, w.lat.IsFin ∧ w.lng.IsFin) (s : SeqState)
    (hinv : SeqInv wps s) (hlt : s.visited.card < wps.length) :
    SeqInv wps (seqStep s) ∧ (seqStep s).visited.card = s.visited.card + 1 := by
  obtain ⟨hwps, hsub, hroutefin, ixs, hroute, hnodup, hset⟩ := hinv
  have hne : s.route ≠ [] := by rw [hroute]; exact List.cons_ne_nil _ _
  have hcurfin : (currentOf s).lat.IsFin ∧ (currentOf s).lng.IsFin :=
    hroutefin _ (currentOf_mem s hne)
  have hex : ∃ i, i < s.wps.length ∧ i ∉ s.visited := by
    rw [hwps]
    have hns : ¬ Finset.range wps.length ⊆ s.visited := by
      intro hss
      have := Finset.card_le_card hss
      rw [Finset.card_range] at this
      omega
    obtain ⟨i, hi, hiv⟩ := Finset.not_subset.mp hns
    exact ⟨i, Finset.mem_range.mp hi, hiv⟩
  obtain ⟨m, hm, hmv, hsel, _⟩ := selectNearest_spec (currentOf s) s.wps s.visited
    hcurfin.1 hcurfin.2 (by rw [hwps]; exact hfin) hex
  have hstep := seqStep_select s m _ hsel
  rw [hwps] at hm
  have hmmem : wps.getD m wpDefault ∈ wps := by
    rw [List.getD_eq_getElem wps wpDefault hm]
    exact List.getElem_mem hm
  have hmnotin : m ∉ ixs := by
    intro hmem
    exact hmv (hset ▸ List.mem_toFinset.mpr hmem)
  rw [hstep]
  refine ⟨⟨hwps, ?_, ?_, ixs ++ [m], ?_, ?_, ?_⟩, ?_⟩
  · intro x hx
    rcases Finset.mem_insert.mp hx with h | h
    · exact h ▸ Finset.mem_range.mpr hm
    · exact hsub h
  · intro w hw
    rcases List.mem_append.mp hw with h | h
    · exact hroutefin w h
    · rw [List.mem_singleton.mp h, hwps]
      exact hfin _ hmmem
  · rw [hroute, hwps, List.map_append]
    simp
  · rw [List.nodup_append]
    exact ⟨hnodup, List.nodup_singleton m, fun a ha hb => hmnotin ((List.mem_singleton.mp hb) ▸ ha)⟩
  · rw [List.toFinset_append, hset]
    ext x
    simp [or_comm]
  · simp [Finset.card_insert_of_not_mem hmv]

theorem seqLoop_terminates (wps : List Wp)
    (hfin : ∀ w ∈ wps, w.lat.IsFin ∧ w.lng.IsFin) :
    ∀ k s, SeqInv wps s → s.visited.card + k = wps.length →
    ∃ s2, seqLoop (k + 1) s = some s2 ∧ SeqInv wps s2 ∧ s2.visited.card = wps.length := by
  intro k
  induction k with
  | zero =>
    intro s hinv hcard
    refine ⟨s, ?_, hinv, by omega⟩
    rw [seqLoop, hinv.1]
    rw [if_neg (by omega)]
  | succ k ih =>
    intro s hinv hcard
    have hlt : s.visited.card < wps.length := by omega
    obtain ⟨hinv2, hcard2⟩ := seqStep_preserves wps hfin s hinv hlt
    have hstep := ih (seqStep s) hinv2 (by omega)
    obtain ⟨s2, hrun, hi2, hc2⟩ := hstep
    refine ⟨s2, ?_, hi2, hc2⟩
    rw [seqLoop, hinv.1]
    rw [if_pos (by omega)]
    exact hrun

theorem toFinset_list_range (n : ℕ) : (List.range n).toFinset = Finset.range n := by
  ext x
  simp

theorem map_getD_range (l : List Wp) (d : Wp) :
    (List.range l.length).map (fun i => l.getD i d) = l := by
  apply List.ext_getElem
  · simp
  · intro i h1 h2
    simp only [List.getElem_map, List.getElem_range]
    exact List.getD_eq_getElem l d h2

/-- Master lemma for the sequencing phase: a non-empty container list
whose parsed coordinates are all finite produces a terminating loop and
a tour of the claimed shape. -/
theorem sequence_success (cs : List ContainerIn) (hne : cs ≠ [])
    (hfin : ∀ c ∈ cs, c.latitude.IsFin ∧ c.longitude.IsFin) :
    ∃ tour : List Wp, calculateRouteSequence cs = Except.ok (some tour) ∧
      tour.length = cs.length + 2 ∧
      tour.head? = some CODECA ∧
      tour.getLast? = some CODECA ∧
      (tour.drop 1).dropLast.Perm (cs.map parseWp) := by
  set wps : List Wp := cs.map parseWp with hwps
  have hlen : wps.length = cs.length := by simp [hwps]
  have hwfin : ∀ w ∈ wps, w.lat.IsFin ∧ w.lng.IsFin := by
    intro w hw
    rw [hwps] at hw
    obtain ⟨c, hc, hcw⟩ := List.mem_map.mp hw
    rw [← hcw]
    exact hfin c hc
  have hcodeca : CODECA.lat.IsFin ∧ CODECA.lng.IsFin :=
    ⟨⟨-29.1750, rfl⟩, ⟨-51.1850, rfl⟩⟩
  have hinv0 : SeqInv wps ⟨wps, ∅, [CODECA]⟩ := by
    refine ⟨rfl, Finset.empty_subset _, ?_, [], by simp, List.nodup_nil, by simp⟩
    intro w hw
    rw [List.mem_singleton.mp hw]
    exact hcodeca
  obtain ⟨s2, hrun, ⟨hw2, hsub2, hfin2, ixs, hroute2, hnodup2, hset2⟩, hcard2⟩ :=
    seqLoop_terminates wps hwfin wps.length ⟨wps, ∅, [CODECA]⟩ hinv0 (by simp)
  have hvis : s2.visited = Finset.range wps.length := by
    apply Finset.eq_of_subset_of_card_le hsub2
    rw [Finset.card_range, hcard2]
  have hperm : ixs.Perm (List.range wps.length) := by
    apply List.perm_of_nodup_nodup_toFinset_eq hnodup2 (List.nodup_range _)
    rw [hset2, hvis, toFinset_list_range]
  have hmap : (ixs.map (fun i => wps.getD i wpDefault)).Perm wps := by
    have h1 := hperm.map (fun i => wps.getD i wpDefault)
    rw [map_getD_range wps wpDefault] at h1
    exact h1
  have hixs : ixs.length = cs.length := by
    rw [hperm.length_eq, List.length_range, hlen]
  have hne0 : ¬ cs.length = 0 := fun h => hne (List.length_eq_zero.mp h)
  refine ⟨s2.route ++ [CODECA], ?_, ?_, ?_, ?_, ?_⟩
  · simp only [calculateRouteSequence, ← hwps, hrun, hne0, if_false]
  · rw [hroute2]
    simp only [List.cons_append, List.length_cons, List.length_append,
      List.length_map, List.length_singleton, List.length_nil]
    omega
  · rw [hroute2]
    simp
  · simp
  · rw [hroute2]
    simp only [List.cons_append, List.drop_succ_cons, List.drop_zero]
    rw [List.dropLast_concat]
    exact hmap

/-- C1: for every non-empty list of containers whose latitude and
longitude parse to finite numbers, the sequencing step of calculateRoute
returns a tour of length (number of containers + 2) whose first and last
elements are the depot CODECA, and in which every input container
appears exactly once between the two depot endpoints (the middle of the
tour is a permutation of the parsed container waypoints). -/
theorem C1_sequence_shape (cs : List ContainerIn) (hne : cs ≠ [])
    (hfin : ∀ c ∈ cs, c.latitude.IsFin ∧ c.longitude.IsFin) :
    ∃ tour : List Wp, calculateRouteSequence cs = Except.ok (some tour) ∧
      tour.length = cs.length + 2 ∧
      tour.head? = some CODECA ∧
      tour.getLast? = some CODECA ∧
      (tour.drop 1).dropLast.Perm (cs.map parseWp) :=
  sequence_success cs hne hfin

theorem C1_sequence_shape_witness :
    ∃ tour : List Wp,
      calculateRouteSequence [⟨JVal.fin 1, JVal.fin 2, "Container 01"⟩] =
        Except.ok (some tour) ∧ tour.length = 3 := by
  obtain ⟨tour, h1, h2, _⟩ :=
    C1_sequence_shape [⟨JVal.fin 1, JVal.fin 2, "Container 01"⟩]
      (by simp)
      (by
        intro c hc
        rw [List.mem_singleton.mp hc]
        exact ⟨⟨1, rfl⟩, ⟨2, rfl⟩⟩)
  exact ⟨tour, h1, by simpa using h2⟩

/-- C2 (amended): calculateRoute fails with the explicit error
"No containers provided" exactly in the empty case, and succeeds with a
tour whenever the list is non-empty with all coordinates parsing to
finite numbers; a container whose coordinates do not parse to a finite
number does NOT produce an error (see the counterexample: the sequencing
loop makes no further progress and never terminates). -/
theorem C2_empty_check_only (cs : List ContainerIn) :
    (cs = [] → calculateRouteSequence cs = Except.error "No containers provided") ∧
    ((cs ≠ [] ∧ ∀ c ∈ cs, c.latitude.IsFin ∧ c.longitude.IsFin) →
      ∃ tour, calculateRouteSequence cs = Except.ok (some tour)) := by
  constructor
  · intro h
    subst h
    rfl
  · rintro ⟨hne, hfin⟩
    obtain ⟨tour, h1, _⟩ := sequence_success cs hne hfin
    exact ⟨tour, h1⟩

theorem C2_empty_check_only_witness :
    calculateRouteSequence [] = Except.error "No containers provided" :=
  (C2_empty_check_only []).1 rfl

/-- C2 counterexample: with a single container whose latitude does not
parse (NaN), calculateRoute raises no error at all: the loop-termination
marker is none, and indeed one full iteration of the while loop body
leaves the loop state unchanged (the NaN distance is never below the
running minimum), so the source loop never terminates and no
InvalidInputError is surfaced. -/
theorem C2_counterexample :
    calculateRouteSequence [⟨JVal.nan, JVal.fin 2, "Container 01"⟩] = Except.ok none ∧
    seqStep ⟨[parseWp ⟨JVal.nan, JVal.fin 2, "Container 01"⟩], ∅, [CODECA]⟩ =
      ⟨[parseWp ⟨JVal.nan, JVal.fin 2, "Container 01"⟩], ∅, [CODECA]⟩ := by
  constructor <;> rfl

/-- C6: at every iteration of the sequencing loop (any reachable
combination of waypoint array, visited set and current point with finite
coordinates and at least one unvisited container), the waypoint appended
by the loop body is the unvisited container with minimal planar
Euclidean distance from the current last point, and ties are broken in
favour of the lower input index. -/
theorem C6_greedy_selection (wps : List Wp) (visited : Finset ℕ) (current : Wp)
    (hcur : current.lat.IsFin ∧ current.lng.IsFin)
    (hfin : ∀ w ∈ wps, w.lat.IsFin ∧ w.lng.IsFin)
    (hex : ∃ i, i < wps.length ∧ i ∉ visited) :
    ∃ m, m < wps.length ∧ m ∉ visited ∧
      (∀ j, j < wps.length → j ∉ visited →
        rdist current (wps.getD m wpDefault) ≤ rdist current (wps.getD j wpDefault) ∧
        (rdist current (wps.getD j wpDefault) = rdist current (wps.getD m wpDefault) →
          m ≤ j)) ∧
      ∀ s : SeqState, s.wps = wps → s.visited = visited → currentOf s = current →
        seqStep s = { s with route := s.route ++ [wps.getD m wpDefault],
                             visited := insert m visited } := by
  obtain ⟨m, hm, hmv, hsel, hmin⟩ :=
    selectNearest_spec current wps visited hcur.1 hcur.2 hfin hex
  refine ⟨m, hm, hmv, hmin, ?_⟩
  intro s h1 h2 h3
  have hsel2 : selectNearest (currentOf s) s.wps s.visited =
      ((m : ℤ), JVal.fin (rdist current (wps.getD m wpDefault))) := by
    rw [h1, h2, h3, hsel]
  have hstep := seqStep_select s m _ hsel2
  rw [hstep, h1, h2]

/-- The two-container scenario of the specification, used to witness
C6_greedy_selection at a concrete input. -/
noncomputable def demoWps : List Wp :=
  [⟨JVal.fin (-29.18), JVal.fin (-51.19), "Container 01"⟩,
   ⟨JVal.fin (-29.16), JVal.fin (-51.17), "Container 02"⟩]

theorem C6_greedy_selection_witness :
    ∃ m, m < demoWps.length ∧ m ∉ (∅ : Finset ℕ) ∧
      (∀ j, j < demoWps.length → j ∉ (∅ : Finset ℕ) →
        rdist CODECA (demoWps.getD m wpDefault) ≤ rdist CODECA (demoWps.getD j wpDefault) ∧
        (rdist CODECA (demoWps.getD j wpDefault) = rdist CODECA (demoWps.getD m wpDefault) →
          m ≤ j)) ∧
      ∀ s : SeqState, s.wps = demoWps → s.visited = (∅ : Finset ℕ) → currentOf s = CODECA →
        seqStep s = { s with route := s.route ++ [demoWps.getD m wpDefault],
                             visited := insert m (∅ : Finset ℕ) } := by
  apply C6_greedy_selection demoWps ∅ CODECA
  · exact ⟨⟨-29.1750, rfl⟩, ⟨-51.1850, rfl⟩⟩
  · intro w hw
    rcases List.mem_cons.mp hw with h | hw2
    · subst h
      exact ⟨⟨-29.18, rfl⟩, ⟨-51.19, rfl⟩⟩
    · rcases List.mem_cons.mp hw2 with h | h
      · subst h
        exact ⟨⟨-29.16, rfl⟩, ⟨-51.17, rfl⟩⟩
      · exact absurd h (List.not_mem_nil w)
  · exact ⟨0, by simp [demoWps], by simp⟩

/-- A point of the optimized route as consumed by the per-leg loop of
calculateRoute; its coordinates are plain (finite) numbers. -/
structure Pt where
  lat : ℝ
  lng : ℝ

/-- Default point for out-of-range list indexing (never reached in the
statements proved below). -/
def ptDefault : Pt := ⟨0, 0⟩

/-- Geometry object of one OSRM route: the type tag string (field type) and the
coordinates field, with none modelling an absent coordinates field. -/
structure OsrmGeometry where
  type : String
  coordinates : Option (List (ℝ × ℝ))

/-- One element of the routes array of an OSRM response; none on
distance or duration models an absent field (the source then defaults it
to 0), none on geometry models an absent geometry. -/
structure OsrmRoute where
  distance : Option ℝ
  duration : Option ℝ
  geometry : Option OsrmGeometry

/-- Outcome of the fetch of one leg: a parsed JSON body (code field and
routes array, none modelling an absent or non-array routes field), or a
thrown exception (network failure or JSON failure). -/
inductive FetchOutcome where
  | ok : String → Option (List OsrmRoute) → FetchOutcome
  | exn : FetchOutcome

/-- JavaScript Math.atan2(y, x). -/
noncomputable def atan2 (y x : ℝ) : ℝ :=
  if 0 < x then Real.arctan (y / x)
  else if x < 0 then
    (if 0 ≤ y then Real.arctan (y / x) + Real.pi else Real.arctan (y / x) - Real.pi)
  else if 0 < y then Real.pi / 2
  else if y < 0 then -(Real.pi / 2)
  else 0

/-- The haversine estimate of the fallback path, exactly as in the
source: Earth radius 6371 km, angles converted to radians, and
c = 2 * atan2(sqrt a, sqrt (1 - a)). -/
noncomputable def haversineKm (originLat originLng destLat destLng : ℝ) : ℝ :=
  let R : ℝ := 6371
  let dLat := (destLat - originLat) * Real.pi / 180
  let dLng := (destLng - originLng) * Real.pi / 180
  let a := Real.sin (dLat / 2) * Real.sin (dLat / 2) +
           Real.cos (originLat * Real.pi / 180) * Real.cos (destLat * Real.pi / 180) *
           Real.sin (dLng / 2) * Real.sin (dLng / 2)
  let c := 2 * atan2 (Real.sqrt a) (Real.sqrt (1 - a))
  R * c

/-- What one leg contributes to the accumulators of the per-leg loop:
the polyline points appended, and the distance (km) and duration (min)
added to the totals. -/
structure LegContrib where
  poly : List (ℝ × ℝ)
  dist : ℝ
  dur : ℝ

/-- The fallback branch for one leg: push the two straight-line points
[origin, destination] (as lng,lat pairs), add the haversine distance and
that distance divided by 40 (assumed 40 km/h). -/
noncomputable def fallbackLeg (o d : Pt) : LegContrib :=
  let distance := haversineKm o.lat o.lng d.lat d.lng
  ⟨[(o.lng, o.lat), (d.lng, d.lat)], distance, distance / 40⟩

/-- The body of the per-leg loop of calculateRoute for one leg, as a
function of the fetch outcome: on a thrown exception, fall back; with a
parsed body, if code is "Ok" and routes[0] exists, use the first route
when its geometry is a LineString with a coordinates field (defaulting a
missing distance or duration to 0), and contribute nothing at all
otherwise; fall back when code is not "Ok" or routes[0] is missing. -/
noncomputable def legContrib (o d : Pt) (r : FetchOutcome) : LegContrib :=
  match r with
  | FetchOutcome.exn => fallbackLeg o d
  | FetchOutcome.ok code routes =>
    if code = "Ok" then
      match routes with
      | some (route :: _) =>
        (match route.geometry with
         | some g =>
           if g.type = "LineString" then
             (match g.coordinates with
              | some coords =>
                ⟨coords, (route.distance.getD 0) / 1000, (route.duration.getD 0) / 60⟩
              | none => ⟨[], 0, 0⟩)
           else ⟨[], 0, 0⟩
         | none => ⟨[], 0, 0⟩)
      | _ => fallbackLeg o d
    else fallbackLeg o d

/-- The accumulators (allPolylinePoints, totalDistance, totalDuration)
after the per-leg loop has run over all legs of the tour, the fetch
outcome of leg i being resp i. -/
noncomputable def accumulateLegs (tour : List Pt) (resp : ℕ → FetchOutcome) : LegContrib :=
  (List.range (tour.length - 1)).foldl
    (fun acc i =>
      let c := legContrib (tour.getD i ptDefault) (tour.getD (i + 1) ptDefault) (resp i)
      ⟨acc.poly ++ c.poly, acc.dist + c.dist, acc.dur + c.dur⟩)
    ⟨[], 0, 0⟩

/-- The value returned by calculateRoute (numeric fields; the formatted
display strings of the source are derived from these and omitted). -/
structure RouteOutput where
  polylinePoints : List (ℝ × ℝ)
  totalDistance : ℝ
  totalDuration : ℝ

/-- The aggregation tail of calculateRoute: run the per-leg loop, floor
the totals (0.1 km and 1 min when the accumulated value is not positive)
and substitute the tour waypoints for an empty polyline. -/
noncomputable def buildRoute (tour : List Pt) (resp : ℕ → FetchOutcome) : RouteOutput :=
  let acc := accumulateLegs tour resp
  let finalDistance := if acc.dist > 0 then acc.dist else 0.1
  let finalDuration := if acc.dur > 0 then acc.dur else 1
  ⟨if acc.poly.length > 0 then acc.poly else tour.map (fun p => (p.lng, p.lat)),
   finalDistance, finalDuration⟩

/-- Polylines contributed by the individual legs, in leg (tour) order. -/
noncomputable def legPolys (tour : List Pt) (resp : ℕ → FetchOutcome) : List (List (ℝ × ℝ)) :=
  (List.range (tour.length - 1)).map
    (fun i => (legContrib (tour.getD i ptDefault) (tour.getD (i + 1) ptDefault) (resp i)).poly)

theorem accumulate_poly_join (tour : List Pt) (resp : ℕ → FetchOutcome) :
    ∀ (l : List ℕ) (acc : LegContrib),
      (l.foldl
        (fun acc i =>
          let c := legContrib (tour.getD i ptDefault) (tour.getD (i + 1) ptDefault) (resp i)
          (⟨acc.poly ++ c.poly, acc.dist + c.dist, acc.dur + c.dur⟩ : LegContrib)) acc).poly =
      acc.poly ++
        (l.map (fun i =>
          (legContrib (tour.getD i ptDefault) (tour.getD (i + 1) ptDefault) (resp i)).poly)).flatten := by
  intro l
  induction l with
  | nil => intro acc; simp
  | cons a l ih =>
    intro acc
    rw [List.foldl_cons, ih, List.map_cons, List.flatten_cons]
    simp [List.append_assoc]

theorem accumulateLegs_poly (tour : List Pt) (resp : ℕ → FetchOutcome) :
    (accumulateLegs tour resp).poly = (legPolys tour resp).flatten := by
  rw [accumulateLegs, legPolys, accumulate_poly_join tour resp (List.range (tour.length - 1))]
  simp

/-- C8: the polyline returned by calculateRoute is the concatenation of
the per-leg polylines in strict leg order (two straight-line points for
a fallback leg, the full provider geometry for a successful leg), and if
the concatenation is empty the tour waypoints themselves, as (lng, lat)
pairs, are substituted. -/
theorem C8_polyline_concatenation (tour : List Pt) (resp : ℕ → FetchOutcome) :
    (buildRoute tour resp).polylinePoints =
      (if (legPolys tour resp).flatten = [] then tour.map (fun p => (p.lng, p.lat))
       else (legPolys tour resp).flatten) ∧
    (∀ o d, (legContrib o d FetchOutcome.exn).poly = [(o.lng, o.lat), (d.lng, d.lat)]) ∧
    (∀ o d dv du coords rest,
      (legContrib o d (FetchOutcome.ok "Ok"
        (some (⟨dv, du, some ⟨"LineString", some coords⟩⟩ :: rest)))).poly = coords) := by
  refine ⟨?_, ?_, ?_⟩
  · simp only [buildRoute, accumulateLegs_poly]
    by_cases h : (legPolys tour resp).flatten = []
    · rw [if_pos h, h]
      simp
    · rw [if_neg h, if_pos (List.length_pos.mpr h)]
  · intro o d
    simp [legContrib, fallbackLeg]
  · intro o d dv du coords rest
    simp [legContrib]

theorem C8_polyline_concatenation_witness :
    (legContrib ⟨0, 0⟩ ⟨1, 1⟩ FetchOutcome.exn).poly =
      [((0 : ℝ), (0 : ℝ)), ((1 : ℝ), (1 : ℝ))] := by
  have h := (C8_polyline_concatenation [] (fun _ => FetchOutcome.exn)).2.1 ⟨0, 0⟩ ⟨1, 1⟩
  simpa using h

/-- C9: the fallback computation is a pure function of the input
coordinates, so two runs on identical inputs with the provider failing
both times yield identical results, and the whole aggregation is
deterministic in the tour and the per-leg provider responses. -/
theorem C9_deterministic (o d : Pt) (r1 r2 : FetchOutcome) (tour : List Pt)
    (resp1 resp2 : ℕ → FetchOutcome)
    (h1 : r1 = FetchOutcome.exn) (h2 : r2 = FetchOutcome.exn)
    (hresp : ∀ i, resp1 i = resp2 i) :
    legContrib o d r1 = legContrib o d r2 ∧ buildRoute tour resp1 = buildRoute tour resp2 := by
  constructor
  · rw [h1, h2]
  · rw [funext hresp]

theorem C9_deterministic_witness :
    legContrib ⟨0, 0⟩ ⟨1, 1⟩ FetchOutcome.exn = legContrib ⟨0, 0⟩ ⟨1, 1⟩ FetchOutcome.exn ∧
    buildRoute [⟨0, 0⟩, ⟨1, 1⟩] (fun _ => FetchOutcome.exn) =
      buildRoute [⟨0, 0⟩, ⟨1, 1⟩] (fun _ => FetchOutcome.exn) :=
  C9_deterministic ⟨0, 0⟩ ⟨1, 1⟩ FetchOutcome.exn FetchOutcome.exn
    [⟨0, 0⟩, ⟨1, 1⟩] (fun _ => FetchOutcome.exn) (fun _ => FetchOutcome.exn)
    rfl rfl (fun _ => rfl)

/-- C10: a leg whose response has code Ok and a good LineString geometry
but no distance (or no duration) field contributes its geometry together
with 0 km (or 0 min), from the default-to-zero, rather than any
haversine fallback value. -/
theorem C10_missing_fields_default_zero (o d : Pt) (dv du : Option ℝ)
    (coords : List (ℝ × ℝ)) (rest : List OsrmRoute) :
    legContrib o d (FetchOutcome.ok "Ok"
        (some (⟨none, du, some ⟨"LineString", some coords⟩⟩ :: rest))) =
      ⟨coords, 0, (du.getD 0) / 60⟩ ∧
    legContrib o d (FetchOutcome.ok "Ok"
        (some (⟨dv, none, some ⟨"LineString", some coords⟩⟩ :: rest))) =
      ⟨coords, (dv.getD 0) / 1000, 0⟩ := by
  constructor <;> simp [legContrib]

theorem C10_missing_fields_default_zero_witness :
    legContrib ⟨0, 0⟩ ⟨1, 1⟩ (FetchOutcome.ok "Ok"
        (some [⟨none, some 30, some ⟨"LineString", some [((2 : ℝ), (3 : ℝ))]⟩⟩])) =
      ⟨[((2 : ℝ), (3 : ℝ))], 0, (30 : ℝ) / 60⟩ := by
  have h := (C10_missing_fields_default_zero ⟨0, 0⟩ ⟨1, 1⟩ none (some 30)
    [((2 : ℝ), (3 : ℝ))] []).1
  simpa using h

/-- C4 (amended): the fallback path is taken on a thrown exception, on a
response code other than Ok, and on a missing or empty routes array; but
when code is Ok with a first route whose geometry is missing, not a
LineString, or lacking a coordinates field, the leg contributes nothing
at all (empty polyline, 0 km, 0 min) instead of the fallback.  The
fallback itself appends exactly the two points [origin, destination] and
adds the haversine distance (Earth radius 6371 km) and that distance
divided by 40 as duration. -/
theorem C4_fallback_containment (o d : Pt) (code : String)
    (routes : Option (List OsrmRoute)) (route : OsrmRoute) (rest : List OsrmRoute) :
    legContrib o d FetchOutcome.exn = fallbackLeg o d ∧
    (code ≠ "Ok" → legContrib o d (FetchOutcome.ok code routes) = fallbackLeg o d) ∧
    legContrib o d (FetchOutcome.ok code none) = fallbackLeg o d ∧
    legContrib o d (FetchOutcome.ok code (some [])) = fallbackLeg o d ∧
    ((route.geometry = none ∨ ∃ g, route.geometry = some g ∧
        (g.type ≠ "LineString" ∨ g.coordinates = none)) →
      legContrib o d (FetchOutcome.ok "Ok" (some (route :: rest))) = ⟨[], 0, 0⟩) ∧
    fallbackLeg o d = ⟨[(o.lng, o.lat), (d.lng, d.lat)],
      haversineKm o.lat o.lng d.lat d.lng, haversineKm o.lat o.lng d.lat d.lng / 40⟩ := by
  refine ⟨rfl, ?_, ?_, ?_, ?_, rfl⟩
  · intro h
    simp [legContrib, h]
  · by_cases h : code = "Ok" <;> simp [legContrib, h]
  · by_cases h : code = "Ok" <;> simp [legContrib, h]
  · rintro (hg | ⟨g, hg, hbad | hbad⟩)
    · simp [legContrib, hg]
    · simp [legContrib, hg, hbad]
    · by_cases ht : g.type = "LineString" <;> simp [legContrib, hg, hbad, ht]

theorem C4_fallback_containment_witness :
    legContrib ⟨0, 0⟩ ⟨1, 1⟩ (FetchOutcome.ok "NoRoute" none) = fallbackLeg ⟨0, 0⟩ ⟨1, 1⟩ :=
  (C4_fallback_containment ⟨0, 0⟩ ⟨1, 1⟩ "NoRoute" none ⟨none, none, none⟩ []).2.1
    (by decide)

/-- C4 counterexample: a response with code Ok, one route, and a missing
geometry makes the leg contribute an empty polyline and zero distance
and duration, not the two-point straight line the claim requires of the
fallback path. -/
theorem C4_counterexample :
    legContrib ⟨0, 0⟩ ⟨1, 1⟩ (FetchOutcome.ok "Ok" (some [⟨none, none, none⟩])) =
      ⟨[], 0, 0⟩ ∧
    (legContrib ⟨0, 0⟩ ⟨1, 1⟩ (FetchOutcome.ok "Ok" (some [⟨none, none, none⟩]))).poly ≠
      [((0 : ℝ), (0 : ℝ)), ((1 : ℝ), (1 : ℝ))] := by
  constructor <;> simp [legContrib]

/-- C5 (amended): the reported totals are always strictly positive, and
an accumulated total of exactly 0 is replaced by the floor value (0.1 km
or 1 min); but an accumulated total that is positive and below the floor
is reported unchanged, so the claimed bounds 0.1 km and 1 min do not
hold in general (see the counterexample). -/
theorem C5_total_floors (tour : List Pt) (resp : ℕ → FetchOutcome) :
    0 < (buildRoute tour resp).totalDistance ∧
    0 < (buildRoute tour resp).totalDuration ∧
    ((accumulateLegs tour resp).dist = 0 → (buildRoute tour resp).totalDistance = 0.1) ∧
    ((accumulateLegs tour resp).dur = 0 → (buildRoute tour resp).totalDuration = 1) := by
  refine ⟨?_, ?_, ?_, ?_⟩
  · by_cases h : (accumulateLegs tour resp).dist > 0
    · simp only [buildRoute, if_pos h]
      exact h
    · simp only [buildRoute, if_neg h]
      norm_num
  · by_cases h : (accumulateLegs tour resp).dur > 0
    · simp only [buildRoute, if_pos h]
      exact h
    · simp only [buildRoute, if_neg h]
      norm_num
  · intro h
    simp [buildRoute, h]
  · intro h
    simp [buildRoute, h]

theorem C5_total_floors_witness :
    (buildRoute [] (fun _ => FetchOutcome.exn)).totalDistance = 0.1 ∧
    (buildRoute [] (fun _ => FetchOutcome.exn)).totalDuration = 1 := by
  have h := C5_total_floors [] (fun _ => FetchOutcome.exn)
  have hacc : accumulateLegs [] (fun _ => FetchOutcome.exn) = ⟨[], 0, 0⟩ := rfl
  exact ⟨h.2.2.1 (by rw [hacc]), h.2.2.2 (by rw [hacc])⟩

/-- Provider responses for the C5 counterexample: every leg succeeds
with a 50 m, 30 s route and a one-point LineString. -/
noncomputable def tinyLegResp : ℕ → FetchOutcome :=
  fun _ => FetchOutcome.ok "Ok" (some [⟨some 50, some 30, some ⟨"LineString", some [(0, 0)]⟩⟩])

/-- C5 counterexample: a two-point tour whose single leg succeeds with a
provider-reported distance of 50 m and duration of 30 s yields
totalDistance 0.05 km and totalDuration 0.5 min, refuting the claimed
bounds of at least 0.1 km and 1 min. -/
theorem C5_counterexample :
    ¬ (0.1 ≤ (buildRoute [⟨0, 0⟩, ⟨1, 1⟩] tinyLegResp).totalDistance ∧
       1 ≤ (buildRoute [⟨0, 0⟩, ⟨1, 1⟩] tinyLegResp).totalDuration) := by
  have hacc : accumulateLegs [⟨0, 0⟩, ⟨1, 1⟩] tinyLegResp =
      ⟨[((0 : ℝ), (0 : ℝ))], 50 / 1000, 30 / 60⟩ := by
    simp [accumulateLegs, List.range_succ, tinyLegResp, legContrib]
  intro h
  have hd := h.1
  simp only [buildRoute, hacc] at hd
  rw [if_pos (by norm_num : ((50 : ℝ) / 1000) > 0)] at hd
  norm_num at hd

/-- Fields written to the routeHistory table by the saveRoute mutation
(the JSON-stringified arrays are modelled as the arrays themselves; the
timestamp and location columns filled by database defaults are not part
of the written fields). -/
structure InsertRouteFields where
  totalDistance : ℚ
  totalDuration : ℤ
  containersCount : ℤ
  containerIds : List ℤ
  polylinePoints : List (List ℚ)
  status : String

/-- A persisted routeHistory row: the auto-increment id plus the
inserted fields. -/
structure RouteRecord where
  id : ℕ
  totalDistance : ℚ
  totalDuration : ℤ
  containersCount : ℤ
  containerIds : List ℤ
  polylinePoints : List (List ℚ)
  status : String
deriving DecidableEq

/-- A persisted routeSavings row. -/
structure SavingsRecord where
  routeId : ℕ
  fuelSaved : ℚ
  co2Saved : ℚ
  costSaved : ℚ
  timeSaved : ℚ
  efficiencyGain : ℚ
deriving DecidableEq

/-- The storage collaborator state: the two tables in insertion order
and the next auto-increment id (MySQL auto-increment starts at 1). -/
structure Store where
  routes : List RouteRecord
  savings : List SavingsRecord
  nextId : ℕ
deriving DecidableEq

/-- The row produced by select().from(routeHistory).orderBy(
routeHistory.id).limit(1): ordering by id without desc is ascending, so
this is the row with the SMALLEST id (the oldest route), despite the
adjacent source comment that says last inserted route. -/
def firstByIdAsc (rs : List RouteRecord) : Option RouteRecord :=
  rs.foldl
    (fun acc r =>
      match acc with
      | none => some r
      | some a => if r.id < a.id then some r else some a)
    none

/-- The saveRoute helper of src/server/db.ts: when the database is
unavailable return null; otherwise insert the row, re-select the first
row by ascending id, and return an object whose insertId field is that
row's id (lastRoute[0]?.id).  The outer Option is the null result, the
inner Option the possibly-undefined id field. -/
def dbSaveRoute (dbAvailable : Bool) (s : Store) (route : InsertRouteFields) :
    Store × Option (Option ℕ) :=
  if dbAvailable then
    let s1 : Store :=
      ⟨s.routes ++ [⟨s.nextId, route.totalDistance, route.totalDuration,
        route.containersCount, route.containerIds, route.polylinePoints, route.status⟩],
       s.savings, s.nextId + 1⟩
    (s1, some ((firstByIdAsc s1.routes).map (fun r => r.id)))
  else (s, none)

/-- The saveRouteSavings helper of src/server/db.ts: insert the savings
row (no-op returning null when the database is unavailable). -/
def dbSaveRouteSavings (dbAvailable : Bool) (s : Store) (rec : SavingsRecord) : Store :=
  if dbAvailable then ⟨s.routes, s.savings ++ [rec], s.nextId⟩ else s

/-- Input of the saveRoute mutation (already validated by the schema). -/
structure SaveInput where
  totalDistance : ℚ
  totalDuration : ℚ
  containersCount : ℤ
  containerIds : List ℤ
  polylinePoints : List (List ℚ)
  fuelSaved : ℚ
  co2Saved : ℚ
  costSaved : ℚ
  timeSaved : ℚ
  efficiencyGain : ℚ

/-- The expression routeResult.insertId || routeResult[Symbol.for(...)]
followed by the falsy check if (!routeId): the Symbol lookup yields
undefined, so the extracted id is the insertId field unless that field
is absent or 0 (both falsy). -/
def extractInsertId (insertId : Option ℕ) : Option ℕ :=
  match insertId with
  | some i => if i = 0 then none else some i
  | none => none

/-- The saveRoute mutation of src/server/routers.ts: write the
RouteRecord (status fixed to completed, duration rounded), fail when the
write returned null or no usable id could be extracted, otherwise write
the SavingsRecord under the extracted id and return that id. -/
def saveRouteMutation (dbAvailable : Bool) (inp : SaveInput) (s : Store) :
    Store × Except String ℕ :=
  let res := dbSaveRoute dbAvailable s
    ⟨inp.totalDistance, round inp.totalDuration, inp.containersCount,
     inp.containerIds, inp.polylinePoints, "completed"⟩
  match res.2 with
  | none => (res.1, Except.error "Failed to save route")
  | some insertId =>
    match extractInsertId insertId with
    | none => (res.1, Except.error "Failed to get route ID from insert result")
    | some routeId =>
      (dbSaveRouteSavings dbAvailable res.1
        ⟨routeId, inp.fuelSaved, inp.co2Saved, inp.costSaved, inp.timeSaved,
         inp.efficiencyGain⟩,
       Except.ok routeId)

/-- The id the mutation manages to extract from the RouteRecord write,
none when the write yields no usable identifier. -/
def idYield (dbAvailable : Bool) (inp : SaveInput) (s : Store) : Option ℕ :=
  match (dbSaveRoute dbAvailable s
    ⟨inp.totalDistance, round inp.totalDuration, inp.containersCount,
     inp.containerIds, inp.polylinePoints, "completed"⟩).2 with
  | none => none
  | some insertId => extractInsertId insertId

/-- A store that already holds one route record (id 1), so the next
auto-increment id is 2. -/
def demoStore : Store := ⟨[⟨1, 10, 20, 3, [1, 2, 3], [], "completed"⟩], [], 2⟩

/-- A valid saveRoute input. -/
def demoInput : SaveInput := ⟨5, 7, 2, [4, 5], [], 1, 2, 3, 4, 5⟩

/-- C3 (code bug, evaluated at the failing input): on a store that
already holds a route record with id 1, a successful saveRoute
invocation writes exactly one new RouteRecord (which receives id 2) and
exactly one SavingsRecord, but it returns 1 — the id of the OLDEST
pre-existing record, because the db helper re-selects orderBy(id)
ascending limit 1 — and links the SavingsRecord to routeId 1 instead of
the newly created id 2, contradicting the claim (and the source's own
comment that it fetches the last inserted route). -/
theorem C3_code_bug_eval :
    (saveRouteMutation true demoInput demoStore).2 = Except.ok 1 ∧
    ((saveRouteMutation true demoInput demoStore).1.routes.map (fun r => r.id)) = [1, 2] ∧
    ((saveRouteMutation true demoInput demoStore).1.savings.map (fun r => r.routeId)) = [1] ∧
    (saveRouteMutation true demoInput demoStore).1.routes.length =
      demoStore.routes.length + 1 ∧
    (saveRouteMutation true demoInput demoStore).1.savings.length =
      demoStore.savings.length + 1 := by
  refine ⟨?_, ?_, ?_, ?_, ?_⟩ <;> rfl

/-- C7: whenever the RouteRecord write fails to yield an identifier
(null write result, or no extractable truthy id), the saveRoute
mutation surfaces an explicit error to the caller and the stored
savings records are unchanged: the SavingsRecord write never happens. -/
theorem C7_no_orphan_savings (dbAvailable : Bool) (inp : SaveInput) (s : Store)
    (h : idYield dbAvailable inp s = none) :
    (∃ msg, (saveRouteMutation dbAvailable inp s).2 = Except.error msg) ∧
    (saveRouteMutation dbAvailable inp s).1.savings = s.savings := by
  have hsav : ∀ f : InsertRouteFields, (dbSaveRoute dbAvailable s f).1.savings = s.savings := by
    intro f
    cases dbAvailable <;> simp [dbSaveRoute]
  unfold idYield at h
  simp only [saveRouteMutation]
  rcases hx : (dbSaveRoute dbAvailable s
      ⟨inp.totalDistance, round inp.totalDuration, inp.containersCount,
       inp.containerIds, inp.polylinePoints, "completed"⟩).2 with _ | insertId
  · exact ⟨⟨"Failed to save route", rfl⟩, hsav _⟩
  · rw [hx] at h
    have h2 : extractInsertId insertId = none := h
    simp only [h2]
    exact ⟨⟨"Failed to get route ID from insert result", rfl⟩, hsav _⟩

theorem C7_no_orphan_savings_witness :
    (∃ msg, (saveRouteMutation false ⟨1, 2, 1, [], [], 0, 0, 0, 0, 0⟩ ⟨[], [], 1⟩).2 =
      Except.error msg) ∧
    (saveRouteMutation false ⟨1, 2, 1, [], [], 0, 0, 0, 0, 0⟩ ⟨[], [], 1⟩).1.savings =
      ([] : List SavingsRecord) :=
  C7_no_orphan_savings false ⟨1, 2, 1, [], [], 0, 0, 0, 0, 0⟩ ⟨[], [], 1⟩ rfl

end SmartRoutes
